import Mathlib

/-!
Verification of the payer-compliance-mvp core against its specification.

The development shallowly embeds the canonical rule evaluator (`check_claim`),
the batch processor (`apply_checks`) from `scrub.py`, the SQLite-backed
attestation store operations from `db.py`, and the reminder computation from
`app.py`.  Python dictionaries become association lists over a small scalar
value type; the SQLite tables become lists of records; timestamps become
integers; raised exceptions become `Except` errors.
-/

set_option autoImplicit false

namespace PayerCompliance

/-- A Python scalar value as it can appear in a claim-record dictionary:
`None`, a bool, an int, or a string.  (Claim records produced by the CSV
loader hold strings; malformed inputs may hold any of these.) -/
inductive PyVal where
  | pynone
  | pybool (b : Bool)
  | pyint (n : Int)
  | pystr (s : String)
  deriving DecidableEq, Repr

/-- Python truthiness (`bool(v)`): `None`, `False`, `0` and `""` are falsy. -/
def PyVal.truthy : PyVal → Bool
  | .pynone => false
  | .pybool b => b
  | .pyint n => n != 0
  | .pystr s => !s.isEmpty

/-- Python `str(v)` on the scalar values above. -/
def PyVal.pyStr : PyVal → String
  | .pynone => "None"
  | .pybool true => "True"
  | .pybool false => "False"
  | .pyint n => toString n
  | .pystr s => s

/-- Python whitespace characters stripped by `str.strip()` (the ASCII ones;
claim records never hold the exotic unicode spaces). -/
def pyIsSpace (c : Char) : Bool :=
  c == ' ' || c == '\t' || c == '\n' || c == '\r' || c == '\x0b' || c == '\x0c'

/-- Python `s.strip()`: drop leading and trailing whitespace. -/
def pyStrip (s : String) : String :=
  String.mk (((s.toList.dropWhile pyIsSpace).reverse.dropWhile pyIsSpace).reverse)

/-- Python `s.startswith(pre)`: character-level prefix test. -/
def pyStartsWith (s pre : String) : Bool :=
  pre.toList.isPrefixOf s.toList

/-- Python `v == lit` where `lit` is a string literal: values of a
different type never compare equal to a string. -/
def PyVal.eqStr : PyVal → String → Bool
  | .pystr s, t => s == t
  | _, _ => false

/-- Python `v in lits` for a list of string literals. -/
def PyVal.memStrs (v : PyVal) (lits : List String) : Bool :=
  lits.any (fun t => v.eqStr t)

/-- A claim-record dictionary: finitely many named fields.  `dict.get`
returns the first binding of a key (keys are unique in a Python dict, so
taking the first binding is faithful). -/
abbrev Row := List (String × PyVal)

/-- Python `row.get(k)` — default `None` when the key is absent. -/
def rowGet (row : Row) (k : String) : PyVal :=
  match row.lookup k with
  | some v => v
  | none => .pynone

/-- Python `row.get(k, d)` with an explicit default. -/
def rowGetD (row : Row) (k : String) (d : PyVal) : PyVal :=
  match row.lookup k with
  | some v => v
  | none => d

/-- `scrub.check_claim` (src/scrub.py:213-246): the canonical four-rule
evaluator.  Each rule appends its label to `issues` in declaration order;
the embedding concatenates the four conditional singleton lists in the same
order. -/
def check_claim (row : Row) : List String :=
  let rule1 := !(rowGet row "DocStatus").truthy
      || (pyStrip (rowGetD row "DocStatus" (.pystr "")).pyStr == "")
  let rule2 := (rowGet row "DocStatus").eqStr "Complete"
      && (rowGet row "ProcCode").memStrs ["J9355", "J1940"]
  let icd10 := (rowGetD row "ICD10" (.pystr "")).pyStr
  let rule3 := pyStartsWith icd10 "I50" || pyStartsWith icd10 "C50"
  let proc_code := (rowGetD row "ProcCode" (.pystr "")).pyStr
  let doc_status := (rowGetD row "DocStatus" (.pystr "")).pyStr
  let rule4 := (proc_code == "J9355" || proc_code == "J1940")
      && doc_status != "Attached"
  (if rule1 then ["Missing documentation"] else [])
    ++ (if rule2 then ["Mismatched documentation"] else [])
    ++ (if rule3 then ["High-audit-risk diagnosis"] else [])
    ++ (if rule4 then ["High-cost procedure requires attached documentation"] else [])

/-- The fixed, ordered vocabulary of the four rule labels, in
rule-declaration order. -/
def issueVocabulary : List String :=
  ["Missing documentation", "Mismatched documentation",
   "High-audit-risk diagnosis",
   "High-cost procedure requires attached documentation"]

/-- `scrub.apply_checks` (src/scrub.py:277-308).  The DataFrame is a list of
rows.  The source copies the input (`df.copy()`), evaluates `check_claim` on
every row of the original, and attaches the issue lists as a new column on
the copy; it never writes to `df` itself.  The embedding returns, on
success, the pair of (the caller's table after the call, the augmented
copy); the augmented copy pairs each original row with its issue list.  An
empty input raises `ValueError("DataFrame cannot be empty")`. -/
def apply_checks (df : List Row) : Except String (List Row × List (Row × List String)) :=
  if df.isEmpty then .error "DataFrame cannot be empty"
  else .ok (df, df.map (fun r => (r, check_claim r)))

/-- Any interleaving of four conditional singletons is a sublist of the
four-element list, in order. -/
lemma four_conditional_sublist (c1 c2 c3 c4 : Bool) (a b c d : String) :
    ((if c1 then [a] else []) ++ (if c2 then [b] else [])
      ++ (if c3 then [c] else []) ++ (if c4 then [d] else [])).Sublist
      [a, b, c, d] := by
  cases c1 <;> cases c2 <;> cases c3 <;> cases c4 <;> simp

/-- `check_claim` output is always a sublist (hence an ordered selection) of
the vocabulary in rule-declaration order. -/
lemma check_claim_sublist_vocab (row : Row) :
    (check_claim row).Sublist issueVocabulary := by
  simp only [check_claim, issueVocabulary]
  exact four_conditional_sublist _ _ _ _ _ _ _ _

/-- C1: on the record `{DocStatus: "", ICD10: "I50.9", ProcCode: "J9355"}`
the evaluator returns exactly the three issues
`["Missing documentation", "High-audit-risk diagnosis",
"High-cost procedure requires attached documentation"]` in this order; and
for every record, the issues that fire appear in rule-declaration order
(the output is a sublist of the ordered vocabulary). -/
theorem check_claim_scenario_and_order :
    check_claim [("DocStatus", .pystr ""), ("ICD10", .pystr "I50.9"),
      ("ProcCode", .pystr "J9355")]
      = ["Missing documentation", "High-audit-risk diagnosis",
         "High-cost procedure requires attached documentation"]
    ∧ ∀ row : Row, (check_claim row).Sublist issueVocabulary :=
  ⟨by decide, fun row => check_claim_sublist_vocab row⟩

/-- C3: the evaluator is total on arbitrary dictionaries — fields may be
absent, `None`, or non-strings — and every element of its output is one of
the four issue labels (malformed fields simply fail to match their rule). -/
theorem check_claim_total_vocab (row : Row) (s : String)
    (hs : s ∈ check_claim row) : s ∈ issueVocabulary :=
  (check_claim_sublist_vocab row).subset hs

/-- Witness for C3: a record with an absent DocStatus, a `None` ICD10 and an
integer ProcCode still evaluates, and its issue is in the vocabulary. -/
theorem check_claim_total_vocab_witness :
    "Missing documentation"
      ∈ check_claim [("ICD10", .pynone), ("ProcCode", .pyint 3)]
    ∧ "Missing documentation" ∈ issueVocabulary :=
  ⟨by decide,
   check_claim_total_vocab [("ICD10", .pynone), ("ProcCode", .pyint 3)]
     "Missing documentation" (by decide)⟩

/-- C4 counterexample: on the empty batch `apply_checks` does raise a
`ValueError`, but its message is "DataFrame cannot be empty" (asserted by
the repository's own tests), not "cannot process empty batch" as claimed. -/
theorem apply_checks_empty_message_counterexample :
    apply_checks [] = .error "DataFrame cannot be empty"
    ∧ "DataFrame cannot be empty" ≠ "cannot process empty batch" :=
  ⟨rfl, by decide⟩

/-- C4 (amended): the batch processor rejects an empty input batch by
raising a `ValueError` with message "DataFrame cannot be empty", and in
that case performs no other work (no output table is produced). -/
theorem apply_checks_rejects_empty :
    apply_checks [] = .error "DataFrame cannot be empty" := rfl

/-- C5: for every non-empty input batch, `apply_checks` leaves the caller's
input table unchanged (the first component of the result is the input
itself — the source only reads `df` and writes to a copy) and returns an
augmented table whose rows project back to exactly the input records in the
same order, each paired with exactly one additional issues field holding
`check_claim` of that record. -/
theorem apply_checks_no_mutation (df : List Row) (hdf : df ≠ []) :
    ∃ out : List (Row × List String),
      apply_checks df = .ok (df, out)
      ∧ out.map Prod.fst = df
      ∧ ∀ p ∈ out, p.2 = check_claim p.1 := by
  refine ⟨df.map (fun r => (r, check_claim r)), ?_, ?_, ?_⟩
  · simp [apply_checks, hdf]
  · rw [List.map_map]; exact List.map_id df
  · intro p hp
    rcases List.mem_map.mp hp with ⟨r, _, rfl⟩
    rfl

/-- Witness for C5 at a concrete one-row batch. -/
theorem apply_checks_no_mutation_witness :
    ∃ out : List (Row × List String),
      apply_checks [[("DocStatus", .pystr "Attached"),
        ("ProcCode", .pystr "J9355")]]
        = .ok ([[("DocStatus", .pystr "Attached"),
            ("ProcCode", .pystr "J9355")]], out)
      ∧ out.map Prod.fst
          = [[("DocStatus", .pystr "Attached"), ("ProcCode", .pystr "J9355")]]
      ∧ ∀ p ∈ out, p.2 = check_claim p.1 :=
  apply_checks_no_mutation
    [[("DocStatus", .pystr "Attached"), ("ProcCode", .pystr "J9355")]]
    (by decide)

/-! ## The attestation store (`db.py`)

SQLite tables become lists of records in insertion (rowid) order; SQL
timestamps become integers (claim theorems never depend on their units);
`CURRENT_TIMESTAMP` becomes an explicit `now` argument of each operation
(one per call — the per-statement clock has second resolution and every
claim is insensitive to sub-call clock drift).  `AUTOINCREMENT` becomes the
`nextAttId` counter.  A raised exception becomes an `Except.error` result
paired with the unchanged store (the source rolls back on error). -/

/-- One row of the `attestations` table (db.py:39-51). -/
structure AttRow where
  id : Nat
  claim_id : String
  status : String
  signed_name : Option String
  signed_at : Option Int
  verified_at : Option Int
  last_reminder_at : Option Int
  created_at : Nat
  deriving DecidableEq, Repr

/-- One row of the `claims` table (db.py:24-36); `id` is the primary key. -/
structure ClaimRow where
  id : String
  patient_id : String
  provider : String
  icd10 : String
  proc_code : String
  doc_status : String
  service_date : String
  issues : String
  created_at : Nat
  deriving DecidableEq, Repr

/-- The database state. -/
structure Store where
  claims : List ClaimRow
  atts : List AttRow
  nextAttId : Nat
  deriving DecidableEq, Repr

/-- A row is the rank-1 row of its partition under
`ROW_NUMBER() OVER (PARTITION BY claim_id ORDER BY created_at DESC)`
(db.py:155, 291, 332).  SQLite leaves the order of `created_at` ties
unspecified; the model determinizes ties by rowid, so the rank-1 row is the
lexicographic maximum of `(created_at, id)` within its partition.  Claim
theorems that depend on which row wins a tie carry a no-tie hypothesis. -/
def isLatestIn (atts : List AttRow) (r : AttRow) : Bool :=
  atts.all (fun q => q.claim_id != r.claim_id || q.id == r.id
    || q.created_at < r.created_at
    || (q.created_at == r.created_at && q.id < r.id))

/-- The fresh attestation row inserted for a newly flagged claim
(db.py:107-111): status Pending, every other nullable column NULL. -/
def pendingAtt (attId : Nat) (cid : String) (now : Nat) : AttRow :=
  { id := attId
    claim_id := cid
    status := "Pending"
    signed_name := none
    signed_at := none
    verified_at := none
    last_reminder_at := none
    created_at := now }

/-- The `claims`-table snapshot row written for one flagged record
(db.py:91-104): every projected column stringified, the issue list joined
with "; ". -/
def upsertClaimRow (p : Row × List String) (now : Nat) : ClaimRow :=
  { id := (rowGetD p.1 "ClaimID" (.pystr "")).pyStr
    patient_id := (rowGetD p.1 "PatientID" (.pystr "")).pyStr
    provider := (rowGetD p.1 "Provider" (.pystr "")).pyStr
    icd10 := (rowGetD p.1 "ICD10" (.pystr "")).pyStr
    proc_code := (rowGetD p.1 "ProcCode" (.pystr "")).pyStr
    doc_status := (rowGetD p.1 "DocStatus" (.pystr "")).pyStr
    service_date := (rowGetD p.1 "ServiceDate" (.pystr "")).pyStr
    issues := String.intercalate "; " p.2
    created_at := now }

/-- Processing of one flagged row inside the `upsert_claims` loop
(db.py:85-111): skip on empty claim id; `INSERT OR REPLACE` into `claims`
(the existing row with that primary key is deleted and the new row
inserted); `INSERT OR IGNORE ... WHERE NOT EXISTS` into `attestations`
inserts a fresh Pending attestation only when the claim has none. -/
def upsertOne (now : Nat) (s : Store) (p : Row × List String) : Store :=
  let claim_id := (rowGetD p.1 "ClaimID" (.pystr "")).pyStr
  if claim_id == "" then s
  else
    let claims := s.claims.filter (fun r => r.id != claim_id)
      ++ [upsertClaimRow p now]
    if s.atts.any (fun a => a.claim_id == claim_id) then
      { s with claims := claims }
    else
      { s with
          claims := claims
          atts := s.atts ++ [pendingAtt s.nextAttId claim_id now]
          nextAttId := s.nextAttId + 1 }

/-- `db.upsert_claims` (db.py:57-119).  The input is a batch in the shape
produced by `apply_checks`: each record paired with its issue list.  Rows
with an empty issue list are filtered out (`len(x) > 0`); the rest are
processed in order.  The issue list is joined with "; " inside
`upsertOne`. -/
def upsert_claims (df : List (Row × List String)) (now : Nat) (s : Store) : Store :=
  (df.filter (fun p => decide (0 < p.2.length))).foldl (upsertOne now) s

/-- One output row of `db.list_claims`, restricted to the selected columns
the claims under verification mention (the full SELECT also projects
patient/procedure/signature columns; they are carried by the same joined
attestation row and add nothing to the properties proved here). -/
structure ViewRow where
  claim_id : String
  provider : String
  attestation_status : Option String
  last_reminder_at : Option Int
  created_at : Nat
  deriving DecidableEq, Repr

/-- The left-join contribution of one `claims` row (db.py:136-158): every
rank-1 attestation row of its partition, or a single NULL-columned row when
the claim has none.  Were several rows of one partition ranked 1
(impossible once ids are unique), each would produce an output row, as in
SQL. -/
def joinRow (s : Store) (c : ClaimRow) : List ViewRow :=
  let matched := s.atts.filter
    (fun a => a.claim_id == c.id && isLatestIn s.atts a)
  if matched.isEmpty then
    [{ claim_id := c.id
       provider := c.provider
       attestation_status := none
       last_reminder_at := none
       created_at := c.created_at }]
  else
    matched.map (fun a =>
      { claim_id := c.id
        provider := c.provider
        attestation_status := some a.status
        last_reminder_at := a.last_reminder_at
        created_at := c.created_at })

/-- `db.list_claims` with no filters (db.py:122-184): every `claims` row
left-joined to the rank-1 row of its attestation partition, ordered by
claim `created_at` descending (`ORDER BY c.created_at DESC`; ties are in
unspecified order in SQLite and in some stable order here). -/
def list_claims (s : Store) : List ViewRow :=
  (s.claims.flatMap (joinRow s)).insertionSort
    (fun v w => w.created_at ≤ v.created_at)

/-- The deduplicated attestation view used by `get_attestation_stats`
(db.py:287-296): only rank-1 rows per claim. -/
def attestations_dedup (s : Store) : List AttRow :=
  s.atts.filter (fun a => isLatestIn s.atts a)

/-- `db.get_attestation_stats` (db.py:273-301) as a count function: the
returned dictionary maps each status to the number of deduplicated rows
with that status (a status absent from the dictionary has count 0). -/
def get_attestation_stats (s : Store) (status : String) : Nat :=
  ((attestations_dedup s).filter (fun a => a.status == status)).length

/-- `db.set_attestation_status` (db.py:187-239).  Statuses outside the
three-value enum raise `ValueError(f"Invalid status: {status}")` before any
write; otherwise the UPDATE touches every attestation row of the claim:
`Signed` also sets `signed_name`/`signed_at`, `Verified` sets
`verified_at`, `Pending` sets only the status. -/
def set_attestation_status (claim_id status : String)
    (signed_name : Option String) (when : Int) (s : Store) :
    Except String Unit × Store :=
  if !(["Pending", "Signed", "Verified"].contains status) then
    (.error ("Invalid status: " ++ status), s)
  else if status == "Signed" then
    (.ok (), { s with atts := s.atts.map (fun a =>
      if a.claim_id == claim_id then
        { a with
            status := status
            signed_name := signed_name
            signed_at := some when }
      else a) })
  else if status == "Verified" then
    (.ok (), { s with atts := s.atts.map (fun a =>
      if a.claim_id == claim_id then
        { a with status := status, verified_at := some when }
      else a) })
  else
    (.ok (), { s with atts := s.atts.map (fun a =>
      if a.claim_id == claim_id then { a with status := status } else a) })

/-- `db.mark_reminded` (db.py:242-270): unconditional UPDATE of
`last_reminder_at` on every attestation row of the claim. -/
def mark_reminded (claim_id : String) (when : Int) (s : Store) : Store :=
  { s with atts := s.atts.map (fun a =>
      if a.claim_id == claim_id then { a with last_reminder_at := some when }
      else a) }

/-- `db.cleanup_duplicate_attestations` (db.py:304-349): count duplicates
as `COUNT(*) - COUNT(DISTINCT claim_id)`; when positive, DELETE every row
that is not rank 1 in its partition and return the number of deleted rows
(`cursor.rowcount`); otherwise return 0 leaving the store untouched. -/
def cleanup_duplicate_attestations (s : Store) : Nat × Store :=
  let dup := s.atts.length - (s.atts.map (fun a => a.claim_id)).dedup.length
  if 0 < dup then
    let kept := s.atts.filter (fun a => isLatestIn s.atts a)
    (s.atts.length - kept.length, { s with atts := kept })
  else (0, s)

/-- A per-row conditional update touches nothing when no row carries the
claim id. -/
lemma update_map_noop (cid : String) (g : AttRow → AttRow) (l : List AttRow)
    (h : ∀ a ∈ l, a.claim_id ≠ cid) :
    l.map (fun a => if a.claim_id == cid then g a else a) = l := by
  induction l with
  | nil => rfl
  | cons a t ih =>
    have ha : (a.claim_id == cid) = false :=
      beq_eq_false_iff_ne.mpr (h a (List.mem_cons_self a t))
    simp only [List.map_cons, ha, Bool.false_eq_true, if_false, List.cons.injEq,
      true_and]
    exact ih (fun b hb => h b (List.mem_cons_of_mem a hb))

/-- C6: a status outside {Pending, Signed, Verified} is rejected with the
invalid-status error before any write: the store is returned unchanged. -/
theorem set_attestation_status_invalid_rejected
    (cid status : String) (name : Option String) (when : Int) (s : Store)
    (h : status ∉ ["Pending", "Signed", "Verified"]) :
    set_attestation_status cid status name when s
      = (.error ("Invalid status: " ++ status), s) := by
  have hc : (["Pending", "Signed", "Verified"].contains status) = false := by
    simpa using h
  unfold set_attestation_status
  rw [hc]
  rfl

/-- Witness for C6 at the status "Draft" on a one-row store. -/
theorem set_attestation_status_invalid_rejected_witness :
    set_attestation_status "CLM001" "Draft" none 7
        ⟨[], [⟨1, "CLM001", "Pending", none, none, none, none, 0⟩], 2⟩
      = (.error ("Invalid status: " ++ "Draft"),
         ⟨[], [⟨1, "CLM001", "Pending", none, none, none, none, 0⟩], 2⟩) :=
  set_attestation_status_invalid_rejected "CLM001" "Draft" none 7
    ⟨[], [⟨1, "CLM001", "Pending", none, none, none, none, 0⟩], 2⟩ (by decide)

/-- C7 counterexample: with NO signer name supplied (`signed_name = None`,
the parameter's default), the Pending → Signed transition nevertheless
succeeds at this interface: the call returns ok and records status Signed
with a NULL signer and the signed-at timestamp. -/
theorem set_signed_without_name_counterexample :
    set_attestation_status "CLM001" "Signed" none 100
        ⟨[], [⟨1, "CLM001", "Pending", none, none, none, none, 0⟩], 2⟩
      = (.ok (),
         ⟨[], [⟨1, "CLM001", "Signed", none, some 100, none, none, 0⟩], 2⟩) :=
  rfl

/-- C7 (amended): `set_attestation_status` with status Signed always
succeeds — it records the supplied signer (possibly absent) and the
signed-at timestamp on every row of the claim and leaves other claims'
rows unchanged; the non-empty-signer requirement of the Pending → Signed
transition is enforced by the calling UI, not at this interface. -/
theorem set_signed_regardless_of_name
    (cid : String) (name : Option String) (when : Int) (s : Store) :
    (set_attestation_status cid "Signed" name when s).1 = .ok ()
    ∧ (∀ a ∈ (set_attestation_status cid "Signed" name when s).2.atts,
        a.claim_id = cid →
          a.status = "Signed" ∧ a.signed_name = name ∧ a.signed_at = some when)
    ∧ (∀ a ∈ (set_attestation_status cid "Signed" name when s).2.atts,
        a.claim_id ≠ cid → a ∈ s.atts) := by
  have hform : set_attestation_status cid "Signed" name when s
      = (.ok (), { s with atts := s.atts.map (fun a =>
          if a.claim_id == cid then
            { a with
                status := "Signed"
                signed_name := name
                signed_at := some when }
          else a) }) := rfl
  rw [hform]
  refine ⟨rfl, ?_, ?_⟩
  · intro a ha hac
    rcases List.mem_map.mp ha with ⟨b, hb, hba⟩
    by_cases hbc : b.claim_id = cid
    · rw [if_pos (beq_iff_eq.mpr hbc)] at hba
      subst hba; exact ⟨rfl, rfl, rfl⟩
    · rw [if_neg (by simpa using hbc)] at hba
      subst hba; exact absurd hac hbc
  · intro a ha hac
    rcases List.mem_map.mp ha with ⟨b, hb, hba⟩
    by_cases hbc : b.claim_id = cid
    · rw [if_pos (beq_iff_eq.mpr hbc)] at hba
      subst hba; exact absurd hbc hac
    · rw [if_neg (by simpa using hbc)] at hba
      subst hba; exact hb

/-- Witness for C7's amended theorem on a concrete one-row store. -/
theorem set_signed_regardless_of_name_witness :
    ((set_attestation_status "CLM002" "Signed" (some "Dr. A") 5
        ⟨[], [⟨1, "CLM002", "Pending", none, none, none, none, 0⟩], 2⟩).1
      = .ok ())
    ∧ (∀ a ∈ (set_attestation_status "CLM002" "Signed" (some "Dr. A") 5
          ⟨[], [⟨1, "CLM002", "Pending", none, none, none, none, 0⟩], 2⟩).2.atts,
        a.claim_id = "CLM002" →
          a.status = "Signed" ∧ a.signed_name = some "Dr. A"
            ∧ a.signed_at = some 5)
    ∧ (∀ a ∈ (set_attestation_status "CLM002" "Signed" (some "Dr. A") 5
          ⟨[], [⟨1, "CLM002", "Pending", none, none, none, none, 0⟩], 2⟩).2.atts,
        a.claim_id ≠ "CLM002"
          → a ∈ (⟨[], [⟨1, "CLM002", "Pending", none, none, none, none, 0⟩], 2⟩
              : Store).atts) :=
  set_signed_regardless_of_name "CLM002" (some "Dr. A") 5
    ⟨[], [⟨1, "CLM002", "Pending", none, none, none, none, 0⟩], 2⟩

/-- C10: a valid-status update or a reminder mark for a claim id with no
attestation rows succeeds without error and leaves every stored record
unchanged — the UPDATE simply matches zero rows. -/
theorem update_absent_claim_noop
    (cid status : String) (name : Option String) (when : Int) (s : Store)
    (hv : status ∈ ["Pending", "Signed", "Verified"])
    (habs : ∀ a ∈ s.atts, a.claim_id ≠ cid) :
    set_attestation_status cid status name when s = (.ok (), s)
    ∧ mark_reminded cid when s = s := by
  have hv' : status = "Pending" ∨ status = "Signed" ∨ status = "Verified" := by
    simpa using hv
  constructor
  · rcases hv' with h | h | h <;> subst h
    · have hform : set_attestation_status cid "Pending" name when s
          = (.ok (), { s with atts := s.atts.map (fun a =>
              if a.claim_id == cid then { a with status := "Pending" }
              else a) }) := rfl
      rw [hform, update_map_noop cid _ s.atts habs]
    · have hform : set_attestation_status cid "Signed" name when s
          = (.ok (), { s with atts := s.atts.map (fun a =>
              if a.claim_id == cid then
                { a with
                    status := "Signed"
                    signed_name := name
                    signed_at := some when }
              else a) }) := rfl
      rw [hform, update_map_noop cid _ s.atts habs]
    · have hform : set_attestation_status cid "Verified" name when s
          = (.ok (), { s with atts := s.atts.map (fun a =>
              if a.claim_id == cid then
                { a with status := "Verified", verified_at := some when }
              else a) }) := rfl
      rw [hform, update_map_noop cid _ s.atts habs]
  · show { s with atts := s.atts.map _ } = s
    rw [update_map_noop cid _ s.atts habs]

/-- Witness for C10 on a store holding only another claim's attestation. -/
theorem update_absent_claim_noop_witness :
    set_attestation_status "CLM404" "Verified" none 9
        ⟨[], [⟨1, "OTHER", "Pending", none, none, none, none, 0⟩], 2⟩
      = (.ok (), ⟨[], [⟨1, "OTHER", "Pending", none, none, none, none, 0⟩], 2⟩)
    ∧ mark_reminded "CLM404" 9
        ⟨[], [⟨1, "OTHER", "Pending", none, none, none, none, 0⟩], 2⟩
      = ⟨[], [⟨1, "OTHER", "Pending", none, none, none, none, 0⟩], 2⟩ :=
  update_absent_claim_noop "CLM404" "Verified" none 9
    ⟨[], [⟨1, "OTHER", "Pending", none, none, none, none, 0⟩], 2⟩
    (by decide) (by decide)

/-! ## The reminder computation (`app.py`) -/

/-- A `last_reminder_at` cell of the claims view as the reminder loop sees
it through pandas: missing (`NaN`, from a NULL column), a timestamp that
parses, or a value whose parse raises. -/
inductive RemCell where
  | na
  | time (t : Int)
  | bad
  deriving DecidableEq, Repr

/-- One row of the `claims_df` argument of `remind_pending_attestations`
(the columns the loop reads).  `attestation_status` is `none` when the
left join produced NULL — a NULL never equals the string 'Pending'. -/
structure RemRow where
  claim_id : String
  provider : String
  attestation_status : Option String
  last_reminder_at : RemCell
  deriving DecidableEq, Repr

/-- The body of the loop of `app.remind_pending_attestations`
(app.py:387-410): skip non-Pending rows; `needs_reminder` is true when the
cell is NaN, when the parsed time is strictly before the cutoff, or when
parsing raises; on a reminder the count is bumped and the claim id is
appended to the sequence of `db.mark_reminded` calls. -/
def remindStep (cutoff : Int) (acc : Nat × List String) (row : RemRow) :
    Nat × List String :=
  if row.attestation_status == some "Pending" then
    let needs : Bool :=
      match row.last_reminder_at with
      | .na => true
      | .time t => decide (t < cutoff)
      | .bad => true
    if needs then (acc.1 + 1, acc.2 ++ [row.claim_id]) else acc
  else acc

/-- `app.remind_pending_attestations` (app.py:380-416).  Timestamps are
seconds, so the cutoff `utcnow() - timedelta(hours=48)` is `now - 48*3600`.
The Python function surfaces `reminded_count` through its success/info
message rather than a return value; the embedding returns that count
together with the ordered list of claim ids passed to `db.mark_reminded`
(its observable side effects). -/
def remind_pending_attestations (rows : List RemRow) (now : Int) :
    Nat × List String :=
  rows.foldl (remindStep (now - 48 * 3600)) (0, [])

/-- The specification's selection predicate (spec §4.4, `computeReminders`):
a record is eligible iff its status is Pending and its `last_reminder_at`
is absent, fails to parse, or is strictly earlier than `asOf` minus the
threshold.  Stated from the spec's words, to be compared with the loop
translated from the source. -/
def reminderEligibleSpec (asOf thresholdSeconds : Int) (row : RemRow) : Bool :=
  row.attestation_status == some "Pending"
    && (match row.last_reminder_at with
        | .na => true
        | .bad => true
        | .time t => decide (t < asOf - thresholdSeconds))

/-- One loop step agrees with the spec's eligibility predicate. -/
lemma remindStep_eq_spec (now : Int) (acc : Nat × List String) (r : RemRow) :
    remindStep (now - 48 * 3600) acc r
      = if reminderEligibleSpec now (48 * 3600) r
        then (acc.1 + 1, acc.2 ++ [r.claim_id]) else acc := by
  unfold remindStep reminderEligibleSpec
  by_cases hp : r.attestation_status = some "Pending" <;>
    cases hlr : r.last_reminder_at <;> simp [hp, hlr]

/-- The loop, from any accumulator, adds exactly the eligible rows'
contribution. -/
lemma remind_foldl_spec (now : Int) (rows : List RemRow) (c : Nat)
    (l : List String) :
    rows.foldl (remindStep (now - 48 * 3600)) (c, l)
      = (c + (rows.filter (reminderEligibleSpec now (48 * 3600))).length,
         l ++ (rows.filter (reminderEligibleSpec now (48 * 3600))).map
           (fun r => r.claim_id)) := by
  induction rows generalizing c l with
  | nil => simp
  | cons r t ih =>
    rw [List.foldl_cons, remindStep_eq_spec]
    by_cases he : reminderEligibleSpec now (48 * 3600) r = true
    · rw [if_pos he, ih, List.filter_cons_of_pos he]
      simp [Nat.add_assoc, Nat.add_comm 1]
    · rw [if_neg (by simpa using he), ih,
        List.filter_cons_of_neg (by simpa using he)]

/-- C9: the reminder computation with threshold 48 hours reminds exactly
the Pending records whose `last_reminder_at` is absent, unparseable, or
strictly earlier than `now - 48h` — calling `mark_reminded` once per
selected record, in row order, and reporting their count; in particular a
Pending record last reminded 72 hours ago is selected, one reminded 10
hours ago is not, and one never reminded is. -/
theorem remind_selects_exactly_eligible (rows : List RemRow) (now : Int) :
    (remind_pending_attestations rows now
      = ((rows.filter (reminderEligibleSpec now (48 * 3600))).length,
         (rows.filter (reminderEligibleSpec now (48 * 3600))).map
           (fun r => r.claim_id)))
    ∧ reminderEligibleSpec now (48 * 3600)
        ⟨"A", "P", some "Pending", .time (now - 72 * 3600)⟩ = true
    ∧ reminderEligibleSpec now (48 * 3600)
        ⟨"B", "P", some "Pending", .time (now - 10 * 3600)⟩ = false
    ∧ reminderEligibleSpec now (48 * 3600) ⟨"C", "P", some "Pending", .na⟩
        = true := by
  refine ⟨?_, ?_, ?_, ?_⟩
  · unfold remind_pending_attestations
    rw [remind_foldl_spec]
    simp
  · have h72 : now - 72 * 3600 < now - 48 * 3600 := by omega
    simp [reminderEligibleSpec, h72]
  · have h10 : ¬ (now - 10 * 3600 < now - 48 * 3600) := by omega
    simp [reminderEligibleSpec, h10]
  · rfl

/-! ## C2: upserting the same flagged claim twice -/

/-- Every view row produced for a claims row carries that claim's id. -/
lemma joinRow_claim_id (s : Store) (c : ClaimRow) :
    ∀ v ∈ joinRow s c, v.claim_id = c.id := by
  intro v hv
  simp only [joinRow] at hv
  split at hv
  · rw [List.mem_singleton] at hv
    subst hv
    rfl
  · rcases List.mem_map.mp hv with ⟨a, _, rfl⟩
    rfl

/-- When the rank-1 filter for a claim returns the single row `a`, the
join contributes exactly one view row, holding `a`'s status. -/
lemma joinRow_of_single (s : Store) (c : ClaimRow) (a : AttRow)
    (h : s.atts.filter (fun x => x.claim_id == c.id && isLatestIn s.atts x)
      = [a]) :
    joinRow s c
      = [⟨c.id, c.provider, some a.status, a.last_reminder_at,
          c.created_at⟩] := by
  simp [joinRow, h]

/-- A one-record batch with a non-empty issue list survives the flagged
filter, so `upsert_claims` reduces to one `upsertOne` step. -/
lemma upsert_claims_singleton (p : Row × List String) (now : Nat) (s : Store)
    (h : p.2 ≠ []) : upsert_claims [p] now s = upsertOne now s p := by
  have hl : 0 < p.2.length := List.length_pos.mpr h
  simp [upsert_claims, hl]

/-- First upsert of a claim id no attestation exists for: the snapshot is
replaced and a fresh Pending attestation appended. -/
lemma upsertOne_fresh (now : Nat) (s : Store) (p : Row × List String)
    (hcid : (rowGetD p.1 "ClaimID" (.pystr "")).pyStr ≠ "")
    (habs : ∀ a ∈ s.atts,
      a.claim_id ≠ (rowGetD p.1 "ClaimID" (.pystr "")).pyStr) :
    upsertOne now s p
      = { claims := s.claims.filter
            (fun r => r.id != (rowGetD p.1 "ClaimID" (.pystr "")).pyStr)
            ++ [upsertClaimRow p now]
          atts := s.atts
            ++ [pendingAtt s.nextAttId
                ((rowGetD p.1 "ClaimID" (.pystr "")).pyStr) now]
          nextAttId := s.nextAttId + 1 } := by
  have h1 : ((rowGetD p.1 "ClaimID" (.pystr "")).pyStr == "") = false :=
    beq_eq_false_iff_ne.mpr hcid
  have h2 : (s.atts.any (fun a =>
      a.claim_id == (rowGetD p.1 "ClaimID" (.pystr "")).pyStr)) = false := by
    rw [List.any_eq_false]
    intro a ha
    simp [habs a ha]
  simp [upsertOne, h1, h2]

/-- Re-upsert of an already-tracked claim: only the snapshot is replaced;
the attestation table is untouched. -/
lemma upsertOne_existing (now : Nat) (s : Store) (p : Row × List String)
    (hcid : (rowGetD p.1 "ClaimID" (.pystr "")).pyStr ≠ "")
    (hex : (s.atts.any (fun a =>
      a.claim_id == (rowGetD p.1 "ClaimID" (.pystr "")).pyStr)) = true) :
    upsertOne now s p
      = { s with
          claims := s.claims.filter
            (fun r => r.id != (rowGetD p.1 "ClaimID" (.pystr "")).pyStr)
            ++ [upsertClaimRow p now] } := by
  have h1 : ((rowGetD p.1 "ClaimID" (.pystr "")).pyStr == "") = false :=
    beq_eq_false_iff_ne.mpr hcid
  simp [upsertOne, h1, hex]

/-- Core single-Pending invariant: in a store whose attestation table is
`preA ++ [A]` with `A` the only row of claim `cid` (Pending), and whose
claims table ends in the one snapshot row of `cid`, every read path —
physical filter, deduplicated stats view, and the `list_claims` join —
surfaces exactly one Pending attestation for `cid`. -/
lemma store_single_pending
    (E : Store) (cid : String) (A : AttRow) (preA : List AttRow)
    (preC : List ClaimRow) (C2 : ClaimRow)
    (hatts : E.atts = preA ++ [A])
    (hclaims : E.claims = preC ++ [C2])
    (habs : ∀ a ∈ preA, a.claim_id ≠ cid)
    (hA : A.claim_id = cid) (hAst : A.status = "Pending")
    (hpre : ∀ c ∈ preC, c.id ≠ cid) (hC2 : C2.id = cid) :
    (E.atts.filter (fun a => a.claim_id == cid)).length = 1
    ∧ (∀ a ∈ E.atts, a.claim_id = cid → a.status = "Pending")
    ∧ ((attestations_dedup E).filter
        (fun a => a.claim_id == cid)).length = 1
    ∧ (list_claims E).countP (fun v => v.claim_id == cid) = 1
    ∧ ∀ v ∈ list_claims E, v.claim_id = cid →
        v.attestation_status = some "Pending" := by
  have hlatest : isLatestIn E.atts A = true := by
    rw [isLatestIn, List.all_eq_true]
    intro q hq
    rw [hatts] at hq
    rcases List.mem_append.mp hq with h | h
    · have hqa : q.claim_id ≠ A.claim_id := by rw [hA]; exact habs q h
      simp [hqa]
    · rw [List.mem_singleton] at h
      subst h
      simp
  have hconj : E.atts.filter
      (fun a => (a.claim_id == cid) && isLatestIn E.atts a) = [A] := by
    conv_lhs => rw [hatts]
    rw [List.filter_append]
    have h1 : preA.filter
        (fun a => (a.claim_id == cid) && isLatestIn (preA ++ [A]) a) = [] :=
      List.filter_eq_nil_iff.mpr (fun a ha => by simp [habs a ha])
    have hlatest2 : isLatestIn (preA ++ [A]) A = true := by
      rw [← hatts]; exact hlatest
    have h2 : [A].filter
        (fun a => (a.claim_id == cid) && isLatestIn (preA ++ [A]) a)
        = [A] := by
      simp [hA, hlatest2]
    rw [h1, h2]
    rfl
  have hjoin : joinRow E C2
      = [⟨C2.id, C2.provider, some A.status, A.last_reminder_at,
          C2.created_at⟩] := by
    apply joinRow_of_single
    rw [hC2]
    exact hconj
  refine ⟨?_, ?_, ?_, ?_, ?_⟩
  · rw [hatts, List.filter_append]
    have h1 : preA.filter (fun a => a.claim_id == cid) = [] :=
      List.filter_eq_nil_iff.mpr (fun a ha => by simp [habs a ha])
    have h2 : [A].filter (fun a => a.claim_id == cid) = [A] := by
      simp [hA]
    rw [h1, h2]
    rfl
  · intro a ha hac
    rw [hatts] at ha
    rcases List.mem_append.mp ha with h | h
    · exact absurd hac (habs a h)
    · rw [List.mem_singleton] at h
      subst h
      exact hAst
  · unfold attestations_dedup
    rw [List.filter_filter, hconj]
    rfl
  · unfold list_claims
    rw [(List.perm_insertionSort _ _).countP_eq]
    rw [hclaims, List.flatMap_append, List.countP_append]
    have hz : (preC.flatMap (joinRow E)).countP
        (fun v => v.claim_id == cid) = 0 := by
      rw [List.countP_eq_zero]
      intro v hv
      rcases List.mem_flatMap.mp hv with ⟨c, hc, hvc⟩
      have hvid := joinRow_claim_id E c v hvc
      simp [hvid, hpre c hc]
    rw [hz, List.flatMap_singleton, hjoin]
    simp [List.countP_cons, hC2]
  · intro v hv hvc
    unfold list_claims at hv
    rw [(List.perm_insertionSort _ _).mem_iff] at hv
    rw [hclaims, List.flatMap_append] at hv
    rcases List.mem_append.mp hv with h | h
    · rcases List.mem_flatMap.mp h with ⟨c, hc, hvc2⟩
      have hvid := joinRow_claim_id E c v hvc2
      exact absurd (hvid.symm.trans hvc) (hpre c hc)
    · rw [List.flatMap_singleton, hjoin, List.mem_singleton] at h
      subst h
      show some A.status = some "Pending"
      rw [hAst]

/-- C2: calling `upsert_claims` twice in succession with the same flagged
record (non-empty issue list, fresh claim id) leaves exactly one Pending
attestation row for that claim id — the second call creates no second row —
and both deduplicated read paths (`get_attestation_stats`'s view and
`list_claims`) surface exactly one Pending attestation for it. -/
theorem upsert_twice_single_pending
    (p : Row × List String) (s0 : Store) (now1 now2 : Nat)
    (hIss : p.2 ≠ [])
    (hcid : (rowGetD p.1 "ClaimID" (.pystr "")).pyStr ≠ "")
    (habs : ∀ a ∈ s0.atts,
      a.claim_id ≠ (rowGetD p.1 "ClaimID" (.pystr "")).pyStr) :
    ((upsert_claims [p] now2 (upsert_claims [p] now1 s0)).atts.filter
        (fun a => a.claim_id == (rowGetD p.1 "ClaimID" (.pystr "")).pyStr)).length
      = 1
    ∧ (∀ a ∈ (upsert_claims [p] now2 (upsert_claims [p] now1 s0)).atts,
        a.claim_id = (rowGetD p.1 "ClaimID" (.pystr "")).pyStr →
          a.status = "Pending")
    ∧ ((attestations_dedup
          (upsert_claims [p] now2 (upsert_claims [p] now1 s0))).filter
        (fun a => a.claim_id == (rowGetD p.1 "ClaimID" (.pystr "")).pyStr)).length
      = 1
    ∧ (list_claims (upsert_claims [p] now2 (upsert_claims [p] now1 s0))).countP
        (fun v => v.claim_id == (rowGetD p.1 "ClaimID" (.pystr "")).pyStr) = 1
    ∧ ∀ v ∈ list_claims (upsert_claims [p] now2 (upsert_claims [p] now1 s0)),
        v.claim_id = (rowGetD p.1 "ClaimID" (.pystr "")).pyStr →
          v.attestation_status = some "Pending" := by
  have hex : ((s0.atts
      ++ [pendingAtt s0.nextAttId
          ((rowGetD p.1 "ClaimID" (.pystr "")).pyStr) now1]).any
      (fun a => a.claim_id == (rowGetD p.1 "ClaimID" (.pystr "")).pyStr))
      = true := by
    rw [List.any_eq_true]
    exact ⟨pendingAtt s0.nextAttId
      ((rowGetD p.1 "ClaimID" (.pystr "")).pyStr) now1, by simp,
      by simp [pendingAtt]⟩
  have hs2 : upsert_claims [p] now2 (upsert_claims [p] now1 s0)
      = { claims := ((s0.claims.filter
              (fun r => r.id != (rowGetD p.1 "ClaimID" (.pystr "")).pyStr)
              ++ [upsertClaimRow p now1]).filter
              (fun r => r.id != (rowGetD p.1 "ClaimID" (.pystr "")).pyStr))
            ++ [upsertClaimRow p now2]
          atts := s0.atts
            ++ [pendingAtt s0.nextAttId
                ((rowGetD p.1 "ClaimID" (.pystr "")).pyStr) now1]
          nextAttId := s0.nextAttId + 1 } := by
    rw [upsert_claims_singleton p now1 s0 hIss,
      upsertOne_fresh now1 s0 p hcid habs,
      upsert_claims_singleton p now2 _ hIss,
      upsertOne_existing now2 _ p hcid hex]
  rw [hs2]
  apply store_single_pending _
    ((rowGetD p.1 "ClaimID" (.pystr "")).pyStr)
    (pendingAtt s0.nextAttId ((rowGetD p.1 "ClaimID" (.pystr "")).pyStr) now1)
    s0.atts
    ((s0.claims.filter
        (fun r => r.id != (rowGetD p.1 "ClaimID" (.pystr "")).pyStr)
        ++ [upsertClaimRow p now1]).filter
        (fun r => r.id != (rowGetD p.1 "ClaimID" (.pystr "")).pyStr))
    (upsertClaimRow p now2)
    rfl rfl habs rfl rfl ?_ rfl
  intro c hc
  have hcm := (List.mem_filter.mp hc).2
  simpa using hcm

/-- Witness for C2: a concrete flagged record upserted twice into the empty
store. -/
theorem upsert_twice_single_pending_witness :
    ((upsert_claims
        [([("ClaimID", .pystr "CLM100"), ("Provider", .pystr "Dr")],
          ["Missing documentation"])] 20
        (upsert_claims
          [([("ClaimID", .pystr "CLM100"), ("Provider", .pystr "Dr")],
            ["Missing documentation"])] 10 ⟨[], [], 1⟩)).atts.filter
        (fun a => a.claim_id
          == (rowGetD [("ClaimID", .pystr "CLM100"),
              ("Provider", .pystr "Dr")] "ClaimID" (.pystr "")).pyStr)).length
      = 1
    ∧ (∀ a ∈ (upsert_claims
        [([("ClaimID", .pystr "CLM100"), ("Provider", .pystr "Dr")],
          ["Missing documentation"])] 20
        (upsert_claims
          [([("ClaimID", .pystr "CLM100"), ("Provider", .pystr "Dr")],
            ["Missing documentation"])] 10 ⟨[], [], 1⟩)).atts,
        a.claim_id = (rowGetD [("ClaimID", .pystr "CLM100"),
            ("Provider", .pystr "Dr")] "ClaimID" (.pystr "")).pyStr →
          a.status = "Pending")
    ∧ ((attestations_dedup
          (upsert_claims
            [([("ClaimID", .pystr "CLM100"), ("Provider", .pystr "Dr")],
              ["Missing documentation"])] 20
            (upsert_claims
              [([("ClaimID", .pystr "CLM100"), ("Provider", .pystr "Dr")],
                ["Missing documentation"])] 10 ⟨[], [], 1⟩))).filter
        (fun a => a.claim_id
          == (rowGetD [("ClaimID", .pystr "CLM100"),
              ("Provider", .pystr "Dr")] "ClaimID" (.pystr "")).pyStr)).length
      = 1
    ∧ (list_claims (upsert_claims
        [([("ClaimID", .pystr "CLM100"), ("Provider", .pystr "Dr")],
          ["Missing documentation"])] 20
        (upsert_claims
          [([("ClaimID", .pystr "CLM100"), ("Provider", .pystr "Dr")],
            ["Missing documentation"])] 10 ⟨[], [], 1⟩))).countP
        (fun v => v.claim_id
          == (rowGetD [("ClaimID", .pystr "CLM100"),
              ("Provider", .pystr "Dr")] "ClaimID" (.pystr "")).pyStr) = 1
    ∧ ∀ v ∈ list_claims (upsert_claims
        [([("ClaimID", .pystr "CLM100"), ("Provider", .pystr "Dr")],
          ["Missing documentation"])] 20
        (upsert_claims
          [([("ClaimID", .pystr "CLM100"), ("Provider", .pystr "Dr")],
            ["Missing documentation"])] 10 ⟨[], [], 1⟩)),
        v.claim_id = (rowGetD [("ClaimID", .pystr "CLM100"),
            ("Provider", .pystr "Dr")] "ClaimID" (.pystr "")).pyStr →
          v.attestation_status = some "Pending" :=
  upsert_twice_single_pending
    ([("ClaimID", .pystr "CLM100"), ("Provider", .pystr "Dr")],
      ["Missing documentation"])
    ⟨[], [], 1⟩ 10 20 (by decide) (by decide) (by decide)

/-! ## C8: compacting duplicate attestations -/

/-- Counting by `p` splits along any second predicate `q`. -/
lemma countP_split {α : Type} (l : List α) (p q : α → Bool) :
    l.countP p
      = (l.countP fun a => p a && q a) + (l.countP fun a => p a && !q a) := by
  induction l with
  | nil => rfl
  | cons a tl ih =>
    rw [List.countP_cons, List.countP_cons, List.countP_cons, ih]
    cases hp : p a <;> cases hq : q a <;> simp [hp, hq] <;> omega

/-- In a partition with a strict `created_at` maximum `rmax` (and globally
unique rowids), a row of that partition is rank 1 iff it is `rmax`. -/
lemma isLatestIn_iff_eq_max (l : List AttRow) (cid : String) (rmax : AttRow)
    (hids : (l.map (fun a => a.id)).Nodup)
    (hmem : rmax ∈ l) (hrc : rmax.claim_id = cid)
    (hmax : ∀ a ∈ l, a.claim_id = cid → a ≠ rmax →
      a.created_at < rmax.created_at) :
    ∀ a ∈ l, a.claim_id = cid → (isLatestIn l a = true ↔ a = rmax) := by
  intro a ha hac
  constructor
  · intro hlat
    by_contra hne
    have hq := (List.all_eq_true.mp hlat) rmax hmem
    have hclaim : (rmax.claim_id != a.claim_id) = false := by
      simp [hrc, hac]
    have hid : (rmax.id == a.id) = false := by
      rw [beq_eq_false_iff_ne]
      intro hid
      exact hne ((List.inj_on_of_nodup_map hids) ha hmem hid.symm)
    have hcr : a.created_at < rmax.created_at := hmax a ha hac hne
    rw [hclaim, hid] at hq
    simp at hq
    omega
  · intro h
    subst h
    rw [isLatestIn, List.all_eq_true]
    intro q hq
    by_cases hqc : q.claim_id = a.claim_id
    · by_cases hqa : q = a
      · subst hqa
        simp
      · have := hmax q hq (hqc.trans hac) hqa
        simp [this]
    · simp [hqc]

/-- A row whose partition is a singleton is always rank 1. -/
lemma isLatestIn_of_unique (l : List AttRow) (a : AttRow)
    (ha : a ∈ l) (huniq : ∀ b ∈ l, b.claim_id = a.claim_id → b = a) :
    isLatestIn l a = true := by
  rw [isLatestIn, List.all_eq_true]
  intro q hq
  by_cases hqc : q.claim_id = a.claim_id
  · have := huniq q hq hqc
    subst this
    simp
  · simp [hqc]

/-- C8: on a store where one claim id has N > 1 attestation rows with a
strict most-recently-created row (and every other claim id has a single
row), cleanup deletes exactly N−1 rows and returns that count, keeping the
most-recently-created row intact as the claim's only remaining row; on a
store with no duplicate claim ids it removes nothing and returns 0. -/
theorem cleanup_removes_all_but_latest
    (s t : Store) (cid : String) (rmax : AttRow) (N : Nat)
    (hids : (s.atts.map (fun a => a.id)).Nodup)
    (hN : (s.atts.filter (fun a => a.claim_id == cid)).length = N)
    (hN2 : 2 ≤ N)
    (hmem : rmax ∈ s.atts) (hrc : rmax.claim_id = cid)
    (hmax : ∀ a ∈ s.atts, a.claim_id = cid → a ≠ rmax →
      a.created_at < rmax.created_at)
    (hoth : ∀ a ∈ s.atts, ∀ b ∈ s.atts, a.claim_id ≠ cid →
      b.claim_id = a.claim_id → b = a)
    (ht : (t.atts.map (fun a => a.claim_id)).Nodup) :
    (cleanup_duplicate_attestations s).1 = N - 1
    ∧ rmax ∈ (cleanup_duplicate_attestations s).2.atts
    ∧ (∀ a ∈ (cleanup_duplicate_attestations s).2.atts,
        a.claim_id = cid → a = rmax)
    ∧ (cleanup_duplicate_attestations s).2.atts.length
        = s.atts.length - (N - 1)
    ∧ cleanup_duplicate_attestations t = (0, t) := by
  have hcount_cid : s.atts.countP (fun a => a.claim_id == cid) = N := by
    rw [List.countP_eq_length_filter, hN]
  -- the duplicate count is positive
  have hmap_count : (s.atts.map (fun a => a.claim_id)).count cid = N := by
    rw [List.count, List.countP_map]
    exact hcount_cid
  have hnotnodup : ¬ (s.atts.map (fun a => a.claim_id)).Nodup := by
    intro hnd
    have := List.nodup_iff_count_le_one.mp hnd cid
    omega
  have hdedlt : (s.atts.map (fun a => a.claim_id)).dedup.length
      < (s.atts.map (fun a => a.claim_id)).length := by
    have hsub := List.dedup_sublist (s.atts.map (fun a => a.claim_id))
    have hle := hsub.length_le
    rcases Nat.lt_or_ge (s.atts.map (fun a => a.claim_id)).dedup.length
      (s.atts.map (fun a => a.claim_id)).length with h | h
    · exact h
    · exact absurd (List.dedup_eq_self.mp
        (hsub.eq_of_length (Nat.le_antisymm hle h))) hnotnodup
  have hdup : 0 < s.atts.length
      - (s.atts.map (fun a => a.claim_id)).dedup.length := by
    have := List.length_map s.atts (fun a => a.claim_id)
    omega
  have hnodupL : s.atts.Nodup := List.Nodup.of_map _ hids
  have hiff := isLatestIn_iff_eq_max s.atts cid rmax hids hmem hrc hmax
  have hlat_max : isLatestIn s.atts rmax = true :=
    (hiff rmax hmem hrc).mpr rfl
  -- length of the kept list
  have hc1 : (s.atts.countP fun a =>
      isLatestIn s.atts a && (a.claim_id == cid))
      = s.atts.countP (fun a => a == rmax) := by
    apply List.countP_congr
    intro a ha
    simp only [Bool.and_eq_true, beq_iff_eq]
    constructor
    · rintro ⟨hlat, hac⟩
      exact (hiff a ha hac).mp hlat
    · rintro rfl
      exact ⟨hlat_max, hrc⟩
  have hc1' : s.atts.countP (fun a => a == rmax) = 1 := by
    have := List.count_eq_one_of_mem hnodupL hmem
    rw [List.count] at this
    exact this
  have hc2 : (s.atts.countP fun a =>
      isLatestIn s.atts a && !(a.claim_id == cid))
      = s.atts.countP (fun a => !(a.claim_id == cid)) := by
    apply List.countP_congr
    intro a ha
    simp only [Bool.and_eq_true, Bool.not_eq_true', beq_eq_false_iff_ne]
    constructor
    · rintro ⟨_, hac⟩
      exact hac
    · intro hac
      refine ⟨?_, hac⟩
      exact isLatestIn_of_unique s.atts a ha
        (fun b hb hbc => hoth a ha b hb hac hbc)
  have hlen_split : s.atts.length
      = s.atts.countP (fun a => a.claim_id == cid)
        + s.atts.countP (fun a => !(a.claim_id == cid)) := by
    have h0 := countP_split s.atts (fun _ => true) (fun a => a.claim_id == cid)
    simpa using h0
  have hkept : (s.atts.filter (fun a => isLatestIn s.atts a)).length
      = 1 + s.atts.countP (fun a => !(a.claim_id == cid)) := by
    rw [← List.countP_eq_length_filter,
      countP_split s.atts (fun a => isLatestIn s.atts a)
        (fun a => a.claim_id == cid), hc1, hc1', hc2]
  have hclean : cleanup_duplicate_attestations s
      = (s.atts.length
          - (s.atts.filter (fun a => isLatestIn s.atts a)).length,
        { s with atts := s.atts.filter (fun a => isLatestIn s.atts a) }) := by
    unfold cleanup_duplicate_attestations
    rw [if_pos hdup]
  have hclean_t : cleanup_duplicate_attestations t = (0, t) := by
    unfold cleanup_duplicate_attestations
    rw [List.dedup_eq_self.mpr ht]
    simp
  refine ⟨?_, ?_, ?_, ?_, hclean_t⟩
  · rw [hclean]
    show s.atts.length
      - (s.atts.filter (fun a => isLatestIn s.atts a)).length = N - 1
    omega
  · rw [hclean]
    exact List.mem_filter.mpr ⟨hmem, hlat_max⟩
  · intro a ha hac
    rw [hclean] at ha
    have hm := List.mem_filter.mp ha
    exact (hiff a hm.1 hac).mp hm.2
  · rw [hclean]
    show (s.atts.filter (fun a => isLatestIn s.atts a)).length
      = s.atts.length - (N - 1)
    omega

/-- Witness for C8: a store with three rows for claim "A" plus a singleton
claim "B", and a duplicate-free store. -/
theorem cleanup_removes_all_but_latest_witness :
    (cleanup_duplicate_attestations
      ⟨[], [⟨1, "A", "Pending", none, none, none, none, 1⟩,
            ⟨2, "A", "Pending", none, none, none, none, 5⟩,
            ⟨3, "B", "Pending", none, none, none, none, 2⟩,
            ⟨4, "A", "Pending", none, none, none, none, 3⟩], 5⟩).1 = 3 - 1
    ∧ (⟨2, "A", "Pending", none, none, none, none, 5⟩ : AttRow)
        ∈ (cleanup_duplicate_attestations
          ⟨[], [⟨1, "A", "Pending", none, none, none, none, 1⟩,
                ⟨2, "A", "Pending", none, none, none, none, 5⟩,
                ⟨3, "B", "Pending", none, none, none, none, 2⟩,
                ⟨4, "A", "Pending", none, none, none, none, 3⟩], 5⟩).2.atts
    ∧ (∀ a ∈ (cleanup_duplicate_attestations
          ⟨[], [⟨1, "A", "Pending", none, none, none, none, 1⟩,
                ⟨2, "A", "Pending", none, none, none, none, 5⟩,
                ⟨3, "B", "Pending", none, none, none, none, 2⟩,
                ⟨4, "A", "Pending", none, none, none, none, 3⟩], 5⟩).2.atts,
        a.claim_id = "A" → a = ⟨2, "A", "Pending", none, none, none, none, 5⟩)
    ∧ (cleanup_duplicate_attestations
        ⟨[], [⟨1, "A", "Pending", none, none, none, none, 1⟩,
              ⟨2, "A", "Pending", none, none, none, none, 5⟩,
              ⟨3, "B", "Pending", none, none, none, none, 2⟩,
              ⟨4, "A", "Pending", none, none, none, none, 3⟩], 5⟩).2.atts.length
        = ([⟨1, "A", "Pending", none, none, none, none, 1⟩,
            ⟨2, "A", "Pending", none, none, none, none, 5⟩,
            ⟨3, "B", "Pending", none, none, none, none, 2⟩,
            ⟨4, "A", "Pending", none, none, none, none, 3⟩]
            : List AttRow).length - (3 - 1)
    ∧ cleanup_duplicate_attestations
        ⟨[], [⟨9, "C", "Signed", some "Dr", some 4, none, none, 4⟩], 10⟩
        = (0, ⟨[], [⟨9, "C", "Signed", some "Dr", some 4, none, none, 4⟩], 10⟩) :=
  cleanup_removes_all_but_latest
    ⟨[], [⟨1, "A", "Pending", none, none, none, none, 1⟩,
          ⟨2, "A", "Pending", none, none, none, none, 5⟩,
          ⟨3, "B", "Pending", none, none, none, none, 2⟩,
          ⟨4, "A", "Pending", none, none, none, none, 3⟩], 5⟩
    ⟨[], [⟨9, "C", "Signed", some "Dr", some 4, none, none, 4⟩], 10⟩
    "A" ⟨2, "A", "Pending", none, none, none, none, 5⟩ 3
    (by decide) (by decide) (by decide) (by decide) (by decide) (by decide)
    (by decide) (by decide)

end PayerCompliance
